import Mathlib

/-!
Verification of the similarity-search and logging specification of the
`datasets` repository slice.

The logging part is a shallow embedding of `src/datasets/utils/logging.py`:
the process-wide mutable logging configuration becomes an explicit state
record threaded through the operations.

The vector-search part (`FaissIndex` / index registry) is exercised by
`tests/test_search.py` but its implementation file is not part of this
slice, so those operations are modelled from the specification text
(each such definition is marked `Modelled from the spec:`).
-/

namespace Datasets

namespace Logging

/-- Standard logging level `NOTSET`, imported by `logging.py`. -/
def NOTSET : Nat := 0

/-- Standard logging level `DEBUG`, imported by `logging.py`. -/
def DEBUG : Nat := 10

/-- Standard logging level `INFO`, imported by `logging.py`. -/
def INFO : Nat := 20

/-- Standard logging level `WARNING`, imported by `logging.py`. -/
def WARNING : Nat := 30

/-- Standard logging level `ERROR`, imported by `logging.py`. -/
def ERROR : Nat := 40

/-- Standard logging level `CRITICAL`, imported by `logging.py`. -/
def CRITICAL : Nat := 50

/-- State of the process-wide logging configuration of `logging.py`:
the module-level `_default_handler` (handler objects are identified by a
freshness counter `nextHandlerId`), and the library root logger's level,
attached handlers, and `propagate` flag.  `rootLevel` is the level of the
top-level root logger, consulted by `getEffectiveLevel` when the library
logger's own level is `NOTSET`. -/
structure LoggingState where
  defaultHandler : Option Nat
  nextHandlerId : Nat
  libLevel : Nat
  libHandlers : List Nat
  libPropagate : Bool
  rootLevel : Nat
  deriving DecidableEq

/-- The state before the library has touched the logging system:
no default handler, library logger level `NOTSET`, no handlers attached,
propagation on (the Python default), root logger at `WARNING`. -/
def initialLoggingState : LoggingState :=
  { defaultHandler := none
    nextHandlerId := 0
    libLevel := NOTSET
    libHandlers := []
    libPropagate := true
    rootLevel := WARNING }

/-- `Logger.addHandler` of the standard library: appends the handler
unless it is already attached. -/
def addHandler (hs : List Nat) (h : Nat) : List Nat :=
  if h ∈ hs then hs else hs ++ [h]

/-- `Logger.removeHandler` of the standard library: removes the handler
if present. -/
def removeHandler (hs : List Nat) (h : Nat) : List Nat :=
  hs.erase h

/-- `_configure_library_root_logger` of `logging.py`: if `_default_handler`
is already set this is a no-op; otherwise it creates a fresh stream handler,
attaches it to the library root logger, sets the level to `INFO` and
disables propagation. -/
def configure_library_root_logger (s : LoggingState) : LoggingState :=
  match s.defaultHandler with
  | some _ => s
  | none =>
      { s with
        defaultHandler := some s.nextHandlerId
        nextHandlerId := s.nextHandlerId + 1
        libHandlers := addHandler s.libHandlers s.nextHandlerId
        libLevel := INFO
        libPropagate := false }

/-- `Logger.getEffectiveLevel` for the library root logger: its own level
if set, otherwise the parent (root) logger's level. -/
def effectiveLevel (s : LoggingState) : Nat :=
  if s.libLevel ≠ 0 then s.libLevel else s.rootLevel

/-- `get_logger` of `logging.py`, restricted to its state effect:
it configures the library root logger and returns a logger handle. -/
def get_logger (s : LoggingState) : LoggingState :=
  configure_library_root_logger s

/-- `get_verbosity` of `logging.py`: configures the library root logger,
then returns its effective level (paired with the updated state). -/
def get_verbosity (s : LoggingState) : Nat × LoggingState :=
  let t := configure_library_root_logger s
  (effectiveLevel t, t)

/-- `set_verbosity` of `logging.py`: configures the library root logger,
then sets its level. -/
def set_verbosity (v : Nat) (s : LoggingState) : LoggingState :=
  let t := configure_library_root_logger s
  { t with libLevel := v }

/-- `disable_default_handler` of `logging.py`: configures the library root
logger, asserts `_default_handler is not None` (returning `none` models a
failed assertion), then removes the default handler. -/
def disable_default_handler (s : LoggingState) : Option LoggingState :=
  let t := configure_library_root_logger s
  match t.defaultHandler with
  | none => none
  | some h => some { t with libHandlers := removeHandler t.libHandlers h }

/-- `enable_default_handler` of `logging.py`: configures the library root
logger, asserts `_default_handler is not None`, then re-attaches the
default handler. -/
def enable_default_handler (s : LoggingState) : Option LoggingState :=
  let t := configure_library_root_logger s
  match t.defaultHandler with
  | none => none
  | some h => some { t with libHandlers := addHandler t.libHandlers h }

/-- `disable_propagation` of `logging.py`. -/
def disable_propagation (s : LoggingState) : LoggingState :=
  let t := configure_library_root_logger s
  { t with libPropagate := false }

/-- `enable_propagation` of `logging.py`. -/
def enable_propagation (s : LoggingState) : LoggingState :=
  let t := configure_library_root_logger s
  { t with libPropagate := true }

/-- The public logging operations of `logging.py`. -/
inductive LogOp where
  | getLoggerOp : LogOp
  | getVerbosityOp : LogOp
  | setVerbosityOp : Nat → LogOp
  | enableDefaultHandlerOp : LogOp
  | disableDefaultHandlerOp : LogOp
  | enablePropagationOp : LogOp
  | disablePropagationOp : LogOp
  deriving DecidableEq

/-- One public logging operation as a state transition; `none` models a
failed `assert`. -/
def applyLogOp (s : LoggingState) : LogOp → Option LoggingState
  | .getLoggerOp => some (get_logger s)
  | .getVerbosityOp => some (get_verbosity s).2
  | .setVerbosityOp v => some (set_verbosity v s)
  | .enableDefaultHandlerOp => enable_default_handler s
  | .disableDefaultHandlerOp => disable_default_handler s
  | .enablePropagationOp => some (enable_propagation s)
  | .disablePropagationOp => some (disable_propagation s)

/-- Run a sequence of public logging operations, stopping at the first
failed assertion. -/
def runLogOps (s : LoggingState) : List LogOp → Option LoggingState
  | [] => some s
  | op :: ops =>
      match applyLogOp s op with
      | none => none
      | some t => runLogOps t ops

end Logging

namespace Search

/-- Modelled from the spec: the error taxonomy of §7 for the
nearest-neighbor index core (the implementation file `datasets/search.py`
is not part of this slice; only its tests are). -/
inductive IndexErr where
  | configError : IndexErr
  | dimensionMismatch : IndexErr
  | notBuilt : IndexErr
  | duplicateIndex : IndexErr
  | missingIndex : IndexErr
  deriving DecidableEq

/-- Modelled from the spec: the metric enum of §3, fixed per VectorIndex. -/
inductive Metric where
  | inner_product : Metric
  | l2 : Metric
  deriving DecidableEq

/-- Modelled from the spec: a VectorStore (§4.1) — the metric, the
dimension fixed by the first `add_vectors` call, and the stored vectors in
insertion (local-position) order.  Vector entries are modelled as exact
integers. -/
structure VectorStore where
  metric : Metric
  dim : Option Nat
  vectors : List (List Int)
  deriving DecidableEq

/-- Dot product of two vectors. -/
def dot (xs ys : List Int) : Int :=
  (List.zipWith (fun a b => a * b) xs ys).sum

/-- Squared Euclidean distance of two vectors. -/
def sqDist (xs ys : List Int) : Int :=
  (List.zipWith (fun a b => (a - b) * (a - b)) xs ys).sum

/-- Modelled from the spec: the per-metric score of a stored vector
against a query (§4.1, algorithmic notes: dot product, or Euclidean
distance for L2). -/
def scoreOf : Metric → List Int → List Int → Int
  | .inner_product, q, v => dot q v
  | .l2, q, v => sqDist q v

/-- `scoreBetter m x y` holds when score `x` strictly outranks score `y`
under metric `m` (§3: higher-is-better for INNER_PRODUCT, lower-is-better
for L2). -/
def scoreBetter : Metric → Int → Int → Prop
  | .inner_product, x, y => y < x
  | .l2, x, y => x < y

instance scoreBetterDecidable (m : Metric) (x y : Int) : Decidable (scoreBetter m x y) :=
  match m with
  | .inner_product => inferInstanceAs (Decidable (y < x))
  | .l2 => inferInstanceAs (Decidable (x < y))

/-- Ranking order on `(score, position)` pairs: better score first, ties
broken by lower local position. -/
def resultLE (m : Metric) (a b : Int × Int) : Prop :=
  scoreBetter m a.1 b.1 ∨ (a.1 = b.1 ∧ a.2 ≤ b.2)

instance resultLEDecidable (m : Metric) : DecidableRel (resultLE m) := fun a b =>
  inferInstanceAs (Decidable (scoreBetter m a.1 b.1 ∨ (a.1 = b.1 ∧ a.2 ≤ b.2)))

instance resultLETotal (m : Metric) : IsTotal (Int × Int) (resultLE m) where
  total a b := by
    have htri : scoreBetter m a.1 b.1 ∨ a.1 = b.1 ∨ scoreBetter m b.1 a.1 := by
      cases m <;> simp only [scoreBetter] <;> omega
    rcases htri with h | h | h
    · exact Or.inl (Or.inl h)
    · rcases Int.le_total a.2 b.2 with h2 | h2
      · exact Or.inl (Or.inr ⟨h, h2⟩)
      · exact Or.inr (Or.inr ⟨h.symm, h2⟩)
    · exact Or.inr (Or.inl h)

instance resultLETrans (m : Metric) : IsTrans (Int × Int) (resultLE m) where
  trans a b c hab hbc := by
    have htr : ∀ x y z : Int, scoreBetter m x y → scoreBetter m y z → scoreBetter m x z := by
      cases m <;> simp only [scoreBetter] <;> omega
    rcases hab with h1 | ⟨e1, p1⟩
    · rcases hbc with h2 | ⟨e2, p2⟩
      · exact Or.inl (htr _ _ _ h1 h2)
      · exact Or.inl (by rw [← e2]; exact h1)
    · rcases hbc with h2 | ⟨e2, p2⟩
      · exact Or.inl (by rw [e1]; exact h2)
      · exact Or.inr ⟨e1.trans e2, le_trans p1 p2⟩

/-- The scored candidate list for one query: each local position `i`
paired (score first) with its score against the query. -/
def VectorStore.searchScores (s : VectorStore) (q : List Int) : List (Int × Int) :=
  (List.range s.vectors.length).map fun i =>
    (scoreOf s.metric q (s.vectors.getD i []), (i : Int))

/-- Modelled from the spec: the core of `search` (§4.1) — rank all stored
vectors best-first under the metric, keep the best `topk`, and pad the
fixed-size result with sentinel `(-1, -1)` entries when fewer matches
exist than requested. -/
def VectorStore.searchRaw (s : VectorStore) (q : List Int) (topk : Nat) :
    List Int × List Int :=
  let sorted := List.insertionSort (resultLE s.metric) (s.searchScores q)
  let top := sorted.take topk
  let padded := top ++ List.replicate (topk - top.length) ((-1 : Int), (-1 : Int))
  (padded.map Prod.fst, padded.map Prod.snd)

/-- Modelled from the spec: `search` (§4.1) — fails with `NotBuilt` if no
vectors have been added, otherwise returns the best-first scores and
local positions, sentinel-padded to the fixed size `topk`. -/
def VectorStore.search (s : VectorStore) (q : List Int) (topk : Nat) :
    Except IndexErr (List Int × List Int) :=
  if s.vectors.isEmpty then .error .notBuilt else .ok (s.searchRaw q topk)

/-- Split a list into consecutive chunks of size `bs` (the last chunk may
be shorter); with `bs = 0` the list is returned as a single chunk. -/
def chunkList (bs : Nat) (l : List α) : List (List α) :=
  if _h1 : l.length = 0 then []
  else if _h2 : bs = 0 then [l]
  else l.take bs :: chunkList bs (l.drop bs)
termination_by l.length
decreasing_by
  simp only [List.length_drop]
  omega

/-- Modelled from the spec: `search_batch` (§4.1) — queries are split into
chunks of `batchSize`, each chunk is searched query-by-query, and the
chunk results are concatenated in input order. -/
def VectorStore.search_batch (s : VectorStore) (queries : List (List Int))
    (topk batchSize : Nat) : Except IndexErr (List (List Int × List Int)) :=
  if s.vectors.isEmpty then .error .notBuilt
  else .ok ((chunkList batchSize queries).map fun c =>
      c.map fun q => s.searchRaw q topk).flatten

/-- The dimension of a vector batch: the length of its first row (a
well-formed 2D batch has all rows of this length). -/
def batchDim (batch : List (List Int)) : Nat :=
  (batch.headD []).length

/-- Modelled from the spec: `add_vectors` (§4.1) — the first call fixes
the store dimension to the batch's dimension; a later call whose batch
dimension differs fails with `DimensionMismatch`; otherwise the batch rows
are appended as new local positions in input order. -/
def VectorStore.add_vectors (s : VectorStore) (batch : List (List Int)) :
    Except IndexErr VectorStore :=
  match s.dim with
  | none => .ok { s with dim := some (batchDim batch), vectors := s.vectors ++ batch }
  | some d0 =>
      if batchDim batch = d0 then .ok { s with vectors := s.vectors ++ batch }
      else .error .dimensionMismatch

/-- Modelled from the spec: `create` (§4.1) with the default flat
exact-search backend keyed by the metric. -/
def VectorStore.create (m : Metric) : VectorStore :=
  { metric := m, dim := none, vectors := [] }

/-- Apply a sequence of `add_vectors` batches to a store, stopping at the
first failure. -/
def add_batches (s : VectorStore) : List (List (List Int)) → Except IndexErr VectorStore
  | [] => .ok s
  | b :: bs =>
      match s.add_vectors b with
      | .error e => .error e
      | .ok t => add_batches t bs

/-- Modelled from the spec: the byte blob written by the
PersistenceCodec (§2, §6) — the serialized form of a VectorStore's
internal structure: a metric tag, the fixed dimension, and the vector
data flattened row-major. -/
structure IndexBlob where
  metricTag : Nat
  dimTag : Option Nat
  data : List Int
  deriving DecidableEq

/-- Serialized tag of a metric. -/
def encodeMetric : Metric → Nat
  | .inner_product => 0
  | .l2 => 1

/-- Metric recovered from its serialized tag. -/
def decodeMetric : Nat → Metric
  | 0 => .inner_product
  | _ => .l2

/-- Modelled from the spec: `save` (§4.1) — serialize the store's
internal structure. -/
def VectorStore.save (s : VectorStore) : IndexBlob :=
  { metricTag := encodeMetric s.metric, dimTag := s.dim, data := s.vectors.flatten }

/-- Modelled from the spec: `load` (§4.1) — restore a store from its
serialized structure. -/
def VectorStore.load (b : IndexBlob) : VectorStore :=
  { metric := decodeMetric b.metricTag
    dim := b.dimTag
    vectors := chunkList (b.dimTag.getD 0) b.data }

/-- Modelled from the spec: the IndexRegistry (§4.3) — the map from index
names to attached stores, in attachment order. -/
structure IndexRegistry where
  indexes : List (String × VectorStore)
  deriving DecidableEq

/-- Whether a name is present in the registry. -/
def IndexRegistry.hasIndex (r : IndexRegistry) (n : String) : Bool :=
  r.indexes.any fun p => p.1 == n

/-- Look up the store registered under a name. -/
def IndexRegistry.getIndex (r : IndexRegistry) (n : String) : Option VectorStore :=
  (r.indexes.find? fun p => p.1 == n).map Prod.snd

/-- Modelled from the spec: the registry-level search used by
`get_nearest` (§4.3) — looks up the store by name, failing with
`MissingIndex` if the name is absent, then delegates to `search`. -/
def IndexRegistry.search_index (r : IndexRegistry) (n : String) (q : List Int)
    (topk : Nat) : Except IndexErr (List Int × List Int) :=
  match r.getIndex n with
  | none => .error .missingIndex
  | some s => s.search q topk

/-- Modelled from the spec: `save_index` (§4.3) — delegates to VectorStore
persistence, failing with `MissingIndex` if the name is absent. -/
def IndexRegistry.save_index (r : IndexRegistry) (n : String) :
    Except IndexErr IndexBlob :=
  match r.getIndex n with
  | none => .error .missingIndex
  | some s => .ok s.save

/-- Modelled from the spec: `load_index` (§4.3) — registers a new
NamedIndex under `name`, failing with `DuplicateIndex` if the name is
taken. -/
def IndexRegistry.load_index (r : IndexRegistry) (n : String) (b : IndexBlob) :
    Except IndexErr IndexRegistry :=
  if r.hasIndex n then .error .duplicateIndex
  else .ok { indexes := r.indexes ++ [(n, VectorStore.load b)] }

/-- Modelled from the spec: `drop_index` (§4.3) — fails with
`MissingIndex` if the name is absent, otherwise releases the store. -/
def IndexRegistry.drop_index (r : IndexRegistry) (n : String) :
    Except IndexErr IndexRegistry :=
  if r.hasIndex n then .ok { indexes := r.indexes.filter fun p => !(p.1 == n) }
  else .error .missingIndex

/-- Modelled from the spec: the registry's projection of a search-result
local position into a row of the owning collection (§4.3) — a sentinel
position `-1` (or any out-of-range position) projects to the explicit
no-match marker, never an out-of-range lookup. -/
def projectPosition (rows : List α) (marker : α) (p : Int) : α :=
  if h : 0 ≤ p ∧ p.toNat < rows.length then rows.get ⟨p.toNat, h.2⟩ else marker

/-- Modelled from the spec: `get_nearest` (§4.3) — search the named index,
then project the returned local positions into rows of the owning
collection. -/
def IndexRegistry.get_nearest (r : IndexRegistry) (n : String) (q : List Int)
    (topk : Nat) (rows : List α) (marker : α) :
    Except IndexErr (List Int × List α) :=
  match r.search_index n q topk with
  | .error e => .error e
  | .ok sp => .ok (sp.1, sp.2.map (projectPosition rows marker))

/-- First returned local position of a search result, `none` on error or
empty result. -/
def firstPosition (res : Except IndexErr (List Int × List Int)) : Option Int :=
  match res with
  | .ok sp => sp.2.head?
  | .error _ => none

/-- The store of the test `IndexableDatasetTest.test_add_faiss_index`:
the 30 vectors `i * ones(5)` for `i = 0..29` under INNER_PRODUCT. -/
def store30 : VectorStore :=
  { metric := .inner_product
    dim := some 5
    vectors := (List.range 30).map fun i => List.replicate 5 (i : Int) }

/-- A small concrete store used as a witness input. -/
def sampleStore : VectorStore :=
  { metric := .inner_product, dim := some 2, vectors := [[1, 0], [0, 1]] }

/-- A registry holding `sampleStore` under the name `vecs`. -/
def sampleRegistry : IndexRegistry :=
  { indexes := [("vecs", sampleStore)] }

/-- The registry obtained from `sampleRegistry` by dropping `vecs`. -/
def droppedRegistry : IndexRegistry :=
  { indexes := [] }

/-- The serialized form of `sampleStore`. -/
def sampleBlob : IndexBlob :=
  sampleStore.save

end Search


namespace Logging

lemma configure_of_isSome (s : LoggingState) (h : s.defaultHandler.isSome = true) :
    configure_library_root_logger s = s := by
  unfold configure_library_root_logger
  cases hd : s.defaultHandler with
  | none => rw [hd] at h; simp at h
  | some a => rfl

lemma configure_isSome (s : LoggingState) :
    (configure_library_root_logger s).defaultHandler.isSome = true := by
  unfold configure_library_root_logger
  cases hd : s.defaultHandler with
  | none => simp
  | some a => simp [hd]

lemma configure_idem (s : LoggingState) :
    configure_library_root_logger (configure_library_root_logger s) =
      configure_library_root_logger s :=
  configure_of_isSome _ (configure_isSome s)

lemma configure_libLevel_of_inv (s : LoggingState)
    (h : s.libLevel = INFO ∨ s = initialLoggingState) :
    (configure_library_root_logger s).libLevel = INFO := by
  rcases h with h | h
  · unfold configure_library_root_logger
    cases hd : s.defaultHandler with
    | none => rfl
    | some a => exact h
  · subst h; rfl

lemma applyLogOp_libLevel (s t : LoggingState) (op : LogOp)
    (hop : ∀ v, op ≠ LogOp.setVerbosityOp v)
    (h : applyLogOp s op = some t) :
    t.libLevel = (configure_library_root_logger s).libLevel := by
  cases op with
  | getLoggerOp =>
      simp only [applyLogOp, get_logger, Option.some_inj] at h
      rw [← h]
  | getVerbosityOp =>
      simp only [applyLogOp, get_verbosity, Option.some_inj] at h
      rw [← h]
  | setVerbosityOp v => exact absurd rfl (hop v)
  | enableDefaultHandlerOp =>
      simp only [applyLogOp, enable_default_handler] at h
      cases hd : (configure_library_root_logger s).defaultHandler with
      | none => rw [hd] at h; simp at h
      | some a => rw [hd] at h; simp only [Option.some_inj] at h; rw [← h]
  | disableDefaultHandlerOp =>
      simp only [applyLogOp, disable_default_handler] at h
      cases hd : (configure_library_root_logger s).defaultHandler with
      | none => rw [hd] at h; simp at h
      | some a => rw [hd] at h; simp only [Option.some_inj] at h; rw [← h]
  | enablePropagationOp =>
      simp only [applyLogOp, enable_propagation, Option.some_inj] at h
      rw [← h]
  | disablePropagationOp =>
      simp only [applyLogOp, disable_propagation, Option.some_inj] at h
      rw [← h]

lemma runLogOps_level_inv (ops : List LogOp) :
    ∀ s₀ s : LoggingState, (∀ v, LogOp.setVerbosityOp v ∉ ops) →
      (s₀.libLevel = INFO ∨ s₀ = initialLoggingState) →
      runLogOps s₀ ops = some s →
      (s.libLevel = INFO ∨ s = initialLoggingState) := by
  induction ops with
  | nil =>
      intro s₀ s _ hinv hrun
      simp only [runLogOps, Option.some_inj] at hrun
      rw [← hrun]; exact hinv
  | cons op ops ih =>
      intro s₀ s hno hinv hrun
      simp only [runLogOps] at hrun
      cases happ : applyLogOp s₀ op with
      | none => rw [happ] at hrun; simp at hrun
      | some t =>
          rw [happ] at hrun
          have hop : ∀ v, op ≠ LogOp.setVerbosityOp v := by
            intro v hv
            exact hno v (by rw [← hv]; exact List.mem_cons_self op ops)
          have ht : t.libLevel = INFO := by
            rw [applyLogOp_libLevel s₀ t op hop happ]
            exact configure_libLevel_of_inv s₀ hinv
          exact ih t s (fun v hv => hno v (List.mem_cons_of_mem op hv)) (Or.inl ht) hrun

lemma applyLogOp_isSome (s : LoggingState) (op : LogOp) :
    (applyLogOp s op).isSome = true := by
  cases op with
  | getLoggerOp => rfl
  | getVerbosityOp => rfl
  | setVerbosityOp v => rfl
  | enableDefaultHandlerOp =>
      simp only [applyLogOp, enable_default_handler]
      cases hd : (configure_library_root_logger s).defaultHandler with
      | none => have := configure_isSome s; rw [hd] at this; simp at this
      | some a => rfl
  | disableDefaultHandlerOp =>
      simp only [applyLogOp, disable_default_handler]
      cases hd : (configure_library_root_logger s).defaultHandler with
      | none => have := configure_isSome s; rw [hd] at this; simp at this
      | some a => rfl
  | enablePropagationOp => rfl
  | disablePropagationOp => rfl

lemma runLogOps_isSome_aux (ops : List LogOp) :
    ∀ s : LoggingState, (runLogOps s ops).isSome = true := by
  induction ops with
  | nil => intro s; rfl
  | cons op ops ih =>
      intro s
      simp only [runLogOps]
      cases happ : applyLogOp s op with
      | none => have := applyLogOp_isSome s op; rw [happ] at this; simp at this
      | some t => exact ih t

end Logging

namespace Search

lemma chunkList_flatten (bs : Nat) (l : List α) : (chunkList bs l).flatten = l := by
  induction l using chunkList.induct bs with
  | case1 l h1 =>
      rw [chunkList]
      simp only [dif_pos h1, List.flatten_nil]
      exact (List.length_eq_zero.mp h1).symm
  | case2 l h1 h2 =>
      rw [chunkList]
      simp [dif_neg h1, dif_pos h2]
  | case3 l h1 h2 ih =>
      rw [chunkList]
      simp only [dif_neg h1, dif_neg h2, List.flatten_cons, ih]
      exact List.take_append_drop bs l

lemma search_eq_ok (s : VectorStore) (q : List Int) (topk : Nat)
    (hne : s.vectors ≠ []) :
    s.search q topk = .ok (s.searchRaw q topk) := by
  unfold VectorStore.search
  rw [if_neg]
  simp [List.isEmpty_iff, hne]

lemma scoreBetter_irrefl (m : Metric) (x : Int) : ¬ scoreBetter m x x := by
  cases m <;> simp only [scoreBetter] <;> omega

lemma resultLE_not_better (m : Metric) {a b : Int × Int} (h : resultLE m a b) :
    ¬ scoreBetter m b.1 a.1 := by
  rcases h with h | ⟨e, _⟩
  · intro hba
    have : scoreBetter m a.1 a.1 := by
      have htr : ∀ x y z : Int, scoreBetter m x y → scoreBetter m y z → scoreBetter m x z := by
        cases m <;> simp only [scoreBetter] <;> omega
      exact htr _ _ _ h hba
    exact scoreBetter_irrefl m a.1 this
  · rw [← e]
    exact scoreBetter_irrefl m a.1

lemma hasIndex_filter_self (l : List (String × VectorStore)) (n : String) :
    ((l.filter fun p => !(p.1 == n)).any fun p => p.1 == n) = false := by
  induction l with
  | nil => rfl
  | cons p l ih =>
      cases h : (p.1 == n) with
      | true => simp [List.filter_cons, h, ih]
      | false => simp [List.filter_cons, h, ih]

lemma getIndex_eq_none (r : IndexRegistry) (n : String)
    (h : r.hasIndex n = false) : r.getIndex n = none := by
  have hfind : (r.indexes.find? fun p => p.1 == n) = none := by
    rw [List.find?_eq_none]
    intro a ha
    unfold IndexRegistry.hasIndex at h
    rw [List.any_eq_false] at h
    exact h a ha
  unfold IndexRegistry.getIndex
  rw [hfind]
  rfl

lemma chunkList_flatten_rows (d : Nat) (hd : 0 < d) :
    ∀ vs : List (List Int), (∀ v ∈ vs, v.length = d) →
      chunkList d vs.flatten = vs := by
  intro vs
  induction vs with
  | nil =>
      intro _
      rw [List.flatten_nil, chunkList]
      simp
  | cons v vs ih =>
      intro hwf
      have hv : v.length = d := hwf v (List.mem_cons_self v vs)
      rw [List.flatten_cons, chunkList]
      have hlen : ¬ (v ++ vs.flatten).length = 0 := by
        simp only [List.length_append]
        omega
      rw [dif_neg hlen, dif_neg (by omega : ¬ d = 0)]
      congr 1
      · rw [← hv]
        exact List.take_left v vs.flatten
      · have hdrop : (v ++ vs.flatten).drop d = vs.flatten := by
          rw [← hv]
          exact List.drop_left v vs.flatten
        rw [hdrop]
        exact ih fun w hw => hwf w (List.mem_cons_of_mem v hw)

lemma load_save (s : VectorStore) (d : Nat) (hdim : s.dim = some d)
    (hd : 0 < d) (hwf : ∀ v ∈ s.vectors, v.length = d) :
    VectorStore.load s.save = s := by
  unfold VectorStore.load VectorStore.save
  cases s with
  | mk m dm vs =>
      simp only at hdim hwf ⊢
      subst hdim
      simp only [VectorStore.mk.injEq]
      refine ⟨?_, trivial, ?_⟩
      · cases m <;> rfl
      · simpa using chunkList_flatten_rows d hd vs hwf

/-- C1: for every VectorStore with at least one vector added (and
satisfying the dimension invariant of §3: a fixed positive dimension with
every stored row of that length), saving it and loading it back yields a
store whose `search` results — scores and positions — for any fixed query
and `top_k` are identical to the original store's results. -/
theorem save_load_roundtrip (s : VectorStore) (d : Nat)
    (hdim : s.dim = some d) (hd : 0 < d)
    (hwf : ∀ v ∈ s.vectors, v.length = d) (_hne : s.vectors ≠ [])
    (q : List Int) (topk : Nat) :
    (VectorStore.load s.save).search q topk = s.search q topk := by
  rw [load_save s d hdim hd hwf]

/-- Witness for C1 at the concrete sample store. -/
theorem save_load_roundtrip_witness :
    (VectorStore.load sampleStore.save).search [1, 0] 10 =
      sampleStore.search [1, 0] 10 :=
  save_load_roundtrip sampleStore 2 rfl (by decide) (by decide) (by decide)
    [1, 0] 10

/-- C2 counterexample: after `drop_index "vecs"` succeeds, `load_index` on
that same name does not fail with `MissingIndex`: it succeeds and registers
a fresh index under the freed name, exactly as §4.3's `load_index` contract
and the test `IndexableDatasetTest.test_serialization` (which loads under
the fresh name `vecs2`) require. -/
theorem drop_then_load_succeeds :
    sampleRegistry.drop_index "vecs" = .ok droppedRegistry ∧
    droppedRegistry.load_index "vecs" sampleBlob =
      .ok { indexes := [("vecs", VectorStore.load sampleBlob)] } :=
  ⟨rfl, rfl⟩

/-- C2 (amended): after `drop_index name` succeeds, the name is absent from
the registry, and every `search`, `save`, or `drop` on an absent name fails
with `MissingIndex`, while `load_index` on an absent name succeeds,
registering a fresh index under it. -/
theorem drop_then_ops_missing (r₀ r : IndexRegistry) (n : String)
    (hdrop : r₀.drop_index n = .ok r) :
    r.hasIndex n = false ∧
    ∀ r' : IndexRegistry, r'.hasIndex n = false →
      (∀ q topk, r'.search_index n q topk = .error .missingIndex) ∧
      r'.save_index n = .error .missingIndex ∧
      r'.drop_index n = .error .missingIndex ∧
      ∀ b : IndexBlob, r'.load_index n b =
        .ok { indexes := r'.indexes ++ [(n, VectorStore.load b)] } := by
  constructor
  · unfold IndexRegistry.drop_index at hdrop
    by_cases hh : r₀.hasIndex n
    · rw [if_pos hh] at hdrop
      simp only [Except.ok.injEq] at hdrop
      rw [← hdrop]
      unfold IndexRegistry.hasIndex
      exact hasIndex_filter_self r₀.indexes n
    · rw [if_neg hh] at hdrop
      exact Except.noConfusion hdrop
  · intro r' hnot
    have hget := getIndex_eq_none r' n hnot
    refine ⟨?_, ?_, ?_, ?_⟩
    · intro q topk
      unfold IndexRegistry.search_index
      rw [hget]
    · unfold IndexRegistry.save_index
      rw [hget]
    · unfold IndexRegistry.drop_index
      rw [if_neg]
      simp [hnot]
    · intro b
      unfold IndexRegistry.load_index
      rw [if_neg]
      simp [hnot]

/-- Witness for the amended C2 at the sample registry. -/
theorem drop_then_ops_missing_witness :
    droppedRegistry.hasIndex "vecs" = false ∧
    droppedRegistry.search_index "vecs" [1, 0] 10 = .error .missingIndex ∧
    droppedRegistry.save_index "vecs" = .error .missingIndex ∧
    droppedRegistry.drop_index "vecs" = .error .missingIndex := by
  have h := drop_then_ops_missing sampleRegistry droppedRegistry "vecs" rfl
  have h2 := h.2 droppedRegistry h.1
  exact ⟨h.1, h2.1 [1, 0] 10, h2.2.1, h2.2.2.1⟩

/-- C3: for the store of the 30 vectors `i * ones(5)` (i = 0..29) under
INNER_PRODUCT, `search(ones(5), top_k = 10)` returns position 29 as its
first (best-ranked) result, and row 29's dot product with the query is
strictly the highest among all stored rows. -/
theorem store30_search_first_is_29 :
    firstPosition (store30.search (List.replicate 5 1) 10) = some 29 ∧
    ∀ i : Fin 29,
      scoreOf Metric.inner_product (List.replicate 5 1)
          (List.replicate 5 ((i : Nat) : Int)) <
        scoreOf Metric.inner_product (List.replicate 5 1)
          (List.replicate 5 (29 : Int)) := by
  constructor
  · decide
  · decide

/-- C6: `add_vectors` with a batch whose dimension differs from the fixed
store dimension fails with `DimensionMismatch`; in this functional
embedding the failed call returns only the error, so the caller's store —
its size and contents — is unchanged. -/
theorem add_vectors_dimension_mismatch (s : VectorStore)
    (batch : List (List Int)) (d : Nat)
    (hdim : s.dim = some d) (hbd : batchDim batch ≠ d) :
    s.add_vectors batch = .error .dimensionMismatch := by
  unfold VectorStore.add_vectors
  rw [hdim]
  simp [hbd]

/-- Witness for C6: a 3-dimensional batch against the 2-dimensional
sample store. -/
theorem add_vectors_dimension_mismatch_witness :
    sampleStore.add_vectors [[1, 2, 3]] = .error .dimensionMismatch :=
  add_vectors_dimension_mismatch sampleStore [[1, 2, 3]] 2 rfl (by decide)

lemma add_vectors_none_eq (s : VectorStore) (batch : List (List Int))
    (h : s.dim = none) :
    s.add_vectors batch =
      .ok { s with dim := some (batchDim batch), vectors := s.vectors ++ batch } := by
  unfold VectorStore.add_vectors
  rw [h]

lemma add_vectors_some_eq (s : VectorStore) (batch : List (List Int)) (d : Nat)
    (h : s.dim = some d) (hb : batchDim batch = d) :
    s.add_vectors batch = .ok { s with vectors := s.vectors ++ batch } := by
  unfold VectorStore.add_vectors
  rw [h]
  simp [hb]

lemma add_batches_size (d : Nat) :
    ∀ (batches : List (List (List Int))) (s : VectorStore),
      (s.dim = none ∨ s.dim = some d) →
      (∀ b ∈ batches, b ≠ [] ∧ ∀ v ∈ b, v.length = d) →
      ∃ t, add_batches s batches = .ok t ∧
        t.vectors.length = s.vectors.length + (batches.map List.length).sum := by
  intro batches
  induction batches with
  | nil =>
      intro s _ _
      exact ⟨s, rfl, by simp⟩
  | cons b bs ih =>
      intro s hdim hwf
      obtain ⟨hbne, hbd⟩ := hwf b (List.mem_cons_self b bs)
      have hbdim : batchDim b = d := by
        cases b with
        | nil => exact absurd rfl hbne
        | cons v vs =>
            unfold batchDim
            simp only [List.headD_cons]
            exact hbd v (List.mem_cons_self v vs)
      have hstep : ∃ t₁, s.add_vectors b = .ok t₁ ∧ t₁.dim = some d ∧
          t₁.vectors = s.vectors ++ b := by
        rcases hdim with h | h
        · exact ⟨_, add_vectors_none_eq s b h, by simp [hbdim], rfl⟩
        · exact ⟨_, add_vectors_some_eq s b d h hbdim, h, rfl⟩
      obtain ⟨t₁, h1, h2, h3⟩ := hstep
      obtain ⟨t, ht, hlen⟩ := ih t₁ (Or.inr h2)
        (fun b' hb' => hwf b' (List.mem_cons_of_mem b hb'))
      refine ⟨t, ?_, ?_⟩
      · unfold add_batches
        rw [h1]
        exact ht
      · rw [hlen, h3]
        simp only [List.length_append, List.map_cons, List.sum_cons]
        omega

/-- C5: for every sequence of vector batches, each a nonempty 2D batch of
the common dimension `d` fixed by the first batch, applied via
`add_vectors` to one freshly created VectorStore, every add succeeds and
the store's final size equals the sum of the batches' row counts. -/
theorem add_vectors_total_size (m : Metric) (d : Nat)
    (batches : List (List (List Int)))
    (hwf : ∀ b ∈ batches, b ≠ [] ∧ ∀ v ∈ b, v.length = d) :
    ∃ t, add_batches (VectorStore.create m) batches = .ok t ∧
      t.vectors.length = (batches.map List.length).sum := by
  obtain ⟨t, h1, h2⟩ :=
    add_batches_size d batches (VectorStore.create m) (Or.inl rfl) hwf
  exact ⟨t, h1, by simpa [VectorStore.create] using h2⟩

/-- Witness for C5: two batches of sizes 1 and 2 give a store of size 3. -/
theorem add_vectors_total_size_witness :
    ∃ t, add_batches (VectorStore.create Metric.inner_product)
        [[[1, 0]], [[0, 1], [2, 3]]] = .ok t ∧ t.vectors.length = 3 :=
  add_vectors_total_size Metric.inner_product 2 [[[1, 0]], [[0, 1], [2, 3]]]
    (by decide)

/-- C4: over any sequence of queries of the store's dimension and any
`batch_size`, `search_batch` returns exactly one result pair per query, and
the i-th returned pair equals the result of a single `search` on the i-th
query — input order is preserved regardless of the internal chunking. -/
theorem search_batch_matches_search (s : VectorStore)
    (queries : List (List Int)) (topk batchSize d : Nat)
    (hne : s.vectors ≠ []) (_hdim : s.dim = some d)
    (_hq : ∀ q ∈ queries, q.length = d) :
    ∃ results, s.search_batch queries topk batchSize = .ok results ∧
      results.length = queries.length ∧
      ∀ i (hqi : i < queries.length) (hri : i < results.length),
        s.search (queries.get ⟨i, hqi⟩) topk = .ok (results.get ⟨i, hri⟩) := by
  have hflat : ((chunkList batchSize queries).map fun c =>
      c.map fun q => s.searchRaw q topk).flatten =
      queries.map fun q => s.searchRaw q topk := by
    rw [← List.map_flatten, chunkList_flatten]
  refine ⟨queries.map fun q => s.searchRaw q topk, ?_, by simp, ?_⟩
  · unfold VectorStore.search_batch
    rw [if_neg (by simp [List.isEmpty_iff, hne])]
    rw [hflat]
  · intro i hqi hri
    rw [search_eq_ok s _ topk hne]
    congr 1
    simp [List.get_eq_getElem, List.getElem_map]

/-- Witness for C4 at the sample store with three queries. -/
theorem search_batch_matches_search_witness :
    ∃ results,
      sampleStore.search_batch [[1, 0], [0, 1], [2, 2]] 10 1000 = .ok results ∧
      results.length = 3 ∧
      ∀ i (hqi : i < ([[1, 0], [0, 1], [2, 2]] : List (List Int)).length)
        (hri : i < results.length),
        sampleStore.search (([[1, 0], [0, 1], [2, 2]] :
          List (List Int)).get ⟨i, hqi⟩) 10 = .ok (results.get ⟨i, hri⟩) :=
  search_batch_matches_search sampleStore [[1, 0], [0, 1], [2, 2]] 10 1000 2
    (by decide) rfl (by decide)

/-- C7: when a store holding fewer than `top_k` vectors is searched, the
result is fixed-size: all stored local positions appear (best-first) in the
leading slots, and the remaining slots are sentinel entries with score `-1`
and position `-1`; and the registry's row projection sends the sentinel
position `-1` to the explicit no-match marker, never a row lookup. -/
theorem search_fewer_than_topk_pads (s : VectorStore) (q : List Int)
    (topk : Nat) (hne : s.vectors ≠ []) (hlt : s.vectors.length < topk) :
    ∃ scores positions, s.search q topk = .ok (scores, positions) ∧
      scores.length = topk ∧ positions.length = topk ∧
      List.Perm (positions.take s.vectors.length)
        ((List.range s.vectors.length).map fun i : Nat => (i : Int)) ∧
      List.Pairwise (fun a b => ¬ scoreBetter s.metric b a)
        (scores.take s.vectors.length) ∧
      scores.drop s.vectors.length =
        List.replicate (topk - s.vectors.length) (-1) ∧
      positions.drop s.vectors.length =
        List.replicate (topk - s.vectors.length) (-1) ∧
      ∀ (rows : List String) (marker : String),
        projectPosition rows marker (-1) = marker := by
  have hscoredlen : (s.searchScores q).length = s.vectors.length := by
    unfold VectorStore.searchScores
    simp
  set sorted := List.insertionSort (resultLE s.metric) (s.searchScores q)
    with hsortdef
  have hslen : sorted.length = s.vectors.length := by
    rw [hsortdef, List.length_insertionSort, hscoredlen]
  have htake : sorted.take topk = sorted :=
    List.take_of_length_le (by omega)
  have hmapfst : (sorted.map Prod.fst).length = s.vectors.length := by
    rw [List.length_map, hslen]
  have hmapsnd : (sorted.map Prod.snd).length = s.vectors.length := by
    rw [List.length_map, hslen]
  have hraw : s.searchRaw q topk =
      ((sorted ++ List.replicate (topk - s.vectors.length)
          ((-1 : Int), (-1 : Int))).map Prod.fst,
       (sorted ++ List.replicate (topk - s.vectors.length)
          ((-1 : Int), (-1 : Int))).map Prod.snd) := by
    simp only [VectorStore.searchRaw]
    rw [← hsortdef, htake, hslen]
  set padded := sorted ++ List.replicate (topk - s.vectors.length)
      ((-1 : Int), (-1 : Int)) with hpad
  refine ⟨padded.map Prod.fst, padded.map Prod.snd, ?_, ?_, ?_, ?_, ?_, ?_,
    ?_, ?_⟩
  · rw [search_eq_ok s q topk hne, hraw]
  · rw [List.length_map, hpad, List.length_append, List.length_replicate,
      hslen]
    omega
  · rw [List.length_map, hpad, List.length_append, List.length_replicate,
      hslen]
    omega
  · have hpos : (padded.map Prod.snd).take s.vectors.length =
        sorted.map Prod.snd := by
      rw [hpad, List.map_append, ← hmapsnd, List.take_left]
    rw [hpos]
    have hperm : List.Perm sorted (s.searchScores q) := by
      rw [hsortdef]
      exact List.perm_insertionSort _ _
    have heq : (s.searchScores q).map Prod.snd =
        (List.range s.vectors.length).map (fun i : Nat => (i : Int)) := by
      unfold VectorStore.searchScores
      rw [List.map_map]
      rfl
    rw [← heq]
    exact hperm.map Prod.snd
  · have hfst : (padded.map Prod.fst).take s.vectors.length =
        sorted.map Prod.fst := by
      rw [hpad, List.map_append, ← hmapfst, List.take_left]
    rw [hfst]
    have hsorted2 : List.Pairwise (resultLE s.metric) sorted := by
      rw [hsortdef]
      exact List.sorted_insertionSort _ _
    rw [List.pairwise_map]
    exact hsorted2.imp fun hab => resultLE_not_better s.metric hab
  · rw [hpad, List.map_append, ← hmapfst, List.drop_left, List.map_replicate]
  · rw [hpad, List.map_append, ← hmapsnd, List.drop_left, List.map_replicate]
  · intro rows marker
    simp [projectPosition]

/-- Witness for C7: the two-vector sample store searched with `top_k = 5`. -/
theorem search_fewer_than_topk_pads_witness :
    ∃ scores positions, sampleStore.search [1, 0] 5 = .ok (scores, positions) ∧
      scores.length = 5 ∧ positions.length = 5 ∧
      List.Perm (positions.take 2) ((List.range 2).map fun i : Nat => (i : Int)) ∧
      List.Pairwise (fun a b => ¬ scoreBetter sampleStore.metric b a)
        (scores.take 2) ∧
      scores.drop 2 = List.replicate 3 (-1) ∧
      positions.drop 2 = List.replicate 3 (-1) ∧
      ∀ (rows : List String) (marker : String),
        projectPosition rows marker (-1) = marker :=
  search_fewer_than_topk_pads sampleStore [1, 0] 5 (by decide) (by decide)

end Search

namespace Logging

/-- C8: for every verbosity level v in {DEBUG, INFO, WARNING, ERROR,
CRITICAL}, calling set_verbosity(v) and then get_verbosity() returns v;
both operate on the one process-wide library root logger state. -/
theorem set_verbosity_then_get (s : LoggingState) (v : Nat)
    (hv : v = DEBUG ∨ v = INFO ∨ v = WARNING ∨ v = ERROR ∨ v = CRITICAL) :
    (get_verbosity (set_verbosity v s)).1 = v := by
  have hsome : (set_verbosity v s).defaultHandler.isSome = true := by
    unfold set_verbosity
    exact configure_isSome s
  unfold get_verbosity
  rw [configure_of_isSome _ hsome]
  show (if (set_verbosity v s).libLevel ≠ 0 then (set_verbosity v s).libLevel
    else (set_verbosity v s).rootLevel) = v
  have hlevel : (set_verbosity v s).libLevel = v := rfl
  have hv0 : v ≠ 0 := by
    rcases hv with h | h | h | h | h <;> subst h <;> decide
  rw [hlevel, if_pos hv0]

/-- Witness for C8 at the initial state with level DEBUG. -/
theorem set_verbosity_then_get_witness :
    (get_verbosity (set_verbosity DEBUG initialLoggingState)).1 = DEBUG :=
  set_verbosity_then_get initialLoggingState DEBUG (Or.inl rfl)

/-- C9: the first public logging call configures the library root logger
with level INFO, propagation disabled and exactly one default handler
attached; on any already-configured state the configuration step is a
no-op; and after any sequence of public operations that contains no
set_verbosity, get_verbosity returns INFO. -/
theorem first_call_configures_info (ops : List LogOp) (s : LoggingState)
    (hno : ∀ v, LogOp.setVerbosityOp v ∉ ops)
    (hrun : runLogOps initialLoggingState ops = some s) :
    (configure_library_root_logger initialLoggingState).libLevel = INFO ∧
    (configure_library_root_logger initialLoggingState).libPropagate = false ∧
    (∃ h, (configure_library_root_logger initialLoggingState).defaultHandler
        = some h ∧
      (configure_library_root_logger initialLoggingState).libHandlers = [h]) ∧
    (∀ t : LoggingState, t.defaultHandler.isSome = true →
      configure_library_root_logger t = t) ∧
    (get_verbosity s).1 = INFO := by
  refine ⟨rfl, rfl, ⟨0, rfl, rfl⟩, configure_of_isSome, ?_⟩
  have hinv := runLogOps_level_inv ops initialLoggingState s hno (Or.inr rfl)
    hrun
  have hl : (configure_library_root_logger s).libLevel = INFO :=
    configure_libLevel_of_inv s hinv
  unfold get_verbosity
  show (if (configure_library_root_logger s).libLevel ≠ 0 then
      (configure_library_root_logger s).libLevel
    else (configure_library_root_logger s).rootLevel) = INFO
  rw [hl, if_pos (by decide : (INFO : Nat) ≠ 0)]

/-- Witness for C9: a single get_logger call, then get_verbosity. -/
theorem first_call_configures_info_witness :
    (get_verbosity (get_logger initialLoggingState)).1 = INFO :=
  (first_call_configures_info [LogOp.getLoggerOp]
    (get_logger initialLoggingState)
    (by intro v h; simp at h) rfl).2.2.2.2

/-- C10: the assertions `_default_handler is not None` in
disable_default_handler and enable_default_handler never fail: running any
sequence of public logging operations from the initial state never reaches
a failed assertion, because each operation configures the library root
logger (which sets the default handler) before asserting. -/
theorem default_handler_assertions_never_fail (ops : List LogOp) :
    (runLogOps initialLoggingState ops).isSome = true :=
  runLogOps_isSome_aux ops initialLoggingState

end Logging

end Datasets
